import Mathlib

/-!
Verification of the download-service orchestration core (`server.js`).

The JavaScript source is shallowly embedded below.  JS strings become
`String`, JS numbers become `ℚ` (exact-rational model of IEEE doubles;
byte counts, which are integral, become `ℕ`), and values that may be
`null`/`undefined` become `Option`-typed.  JS truthiness on strings
(`"" `/missing are falsy) and on numbers (`0`/missing are falsy) is made
explicit through the `jsOrNullStr`/`jsOrNullQ` helpers.
`Array.prototype.sort` is modelled as a stable insertion sort, matching
the ECMAScript guarantee (stable, sorted w.r.t. a consistent comparator).
-/

/-- JS truthiness-aware `x || null` on string values: empty string and
missing both collapse to `none` (JS `null`). -/
def jsOrNullStr : Option String → Option String
  | some s => if s == "" then none else some s
  | none => none

/-- A JS string value is truthy when present and non-empty. -/
def strTruthy (o : Option String) : Bool := (jsOrNullStr o).isSome

/-- JS `x || d` on a string value with a string default. -/
def jsOrStr (o : Option String) (d : String) : String :=
  match jsOrNullStr o with
  | some s => s
  | none => d

/-- JS `x || y` on two possibly-missing string values. -/
def jsOrOptStr (a b : Option String) : Option String :=
  match jsOrNullStr a with
  | some s => some s
  | none => jsOrNullStr b

/-- JS truthiness-aware `x || null` on numeric values: `0` and missing
both collapse to `none`. -/
def jsOrNullQ : Option ℚ → Option ℚ
  | some q => if q == 0 then none else some q
  | none => none

/-- A token of the numeric-aware string comparison: a maximal digit run
(read as a number) or a single non-digit character. -/
inductive NatTok
  | num (n : ℕ)
  | ch (c : Char)
deriving DecidableEq

/-- Fold step building the token list in reverse: consecutive digits are
merged into one numeric token. -/
def pushTok (acc : List NatTok) (c : Char) : List NatTok :=
  if c.isDigit then
    match acc with
    | NatTok.num n :: rest => NatTok.num (10 * n + (c.toNat - 48)) :: rest
    | _ => NatTok.num (c.toNat - 48) :: acc
  else
    NatTok.ch c :: acc

/-- Tokenization of a string into digit runs and single characters. -/
def natTokens (s : String) : List NatTok :=
  (s.data.foldl pushTok []).reverse

/-- Three-way comparison of tokens: digit runs compare by numeric value
and sort before other characters, which compare by code point. -/
def cmpTok : NatTok → NatTok → Int
  | NatTok.num m, NatTok.num n => if m < n then -1 else if n < m then 1 else 0
  | NatTok.num _, NatTok.ch _ => -1
  | NatTok.ch _, NatTok.num _ => 1
  | NatTok.ch c, NatTok.ch d =>
      if c.toNat < d.toNat then -1 else if d.toNat < c.toNat then 1 else 0

/-- Lexicographic comparison of token lists. -/
def cmpToks : List NatTok → List NatTok → Int
  | [], [] => 0
  | [], _ :: _ => -1
  | _ :: _, [] => 1
  | a :: as, b :: bs =>
      let c := cmpTok a b
      if c = 0 then cmpToks as bs else c

/-- Model of `a.localeCompare(b, undefined, \x7b numeric: true \x7d)`
(an external JS builtin): ICU numeric collation is approximated by
comparing digit runs by value and other characters by code point. -/
def localeCompareNumeric (a b : String) : Int :=
  cmpToks (natTokens a) (natTokens b)

/-- A heterogeneous JS value, used for descriptor fields whose dynamic
type differs between the two backends (`itag`, `contentLength`). -/
inductive JSVal
  | num (q : ℚ)
  | str (s : String)
  | null
deriving DecidableEq

/-- Normalized format descriptor: the object shape built by both the
`/api/formats` mapper and `getFormatsWithYtDlp` in `server.js`. -/
structure FormatDescriptor where
  itag : JSVal
  container : Option String
  qualityLabel : Option String
  bitrate : Option ℚ
  audioBitrate : Option ℚ
  hasVideo : Bool
  hasAudio : Bool
  contentLength : JSVal
deriving DecidableEq

/-- Raw format entry as delivered by the in-process library backend
(`ytdl-core` `info.formats`): booleans for capabilities, numeric `itag`,
string `contentLength`. -/
structure RawYtdlFormat where
  itag : ℕ
  container : Option String
  qualityLabel : Option String
  bitrate : Option ℚ
  audioBitrate : Option ℚ
  hasVideo : Bool
  hasAudio : Bool
  contentLength : Option String
deriving DecidableEq

/-- Raw format entry as parsed from the external `yt-dlp -J` output. -/
structure RawYtDlpFormat where
  ext : Option String
  acodec : Option String
  vcodec : Option String
  format_id : Option String
  format : Option String
  format_note : Option String
  tbr : Option ℚ
  abr : Option ℚ
  filesize : Option ℚ
  filesize_approx : Option ℚ
deriving DecidableEq

/-- The comparator shared verbatim by the `/api/formats` sort
(server.js:67-73) and the `getFormatsWithYtDlp` sort (server.js:128-134):
audio+video entries first, then quality label descending under the
numeric-aware comparison. -/
def cmpFormats (a b : FormatDescriptor) : Int :=
  if (a.hasVideo && a.hasAudio) && !(b.hasVideo && b.hasAudio) then -1
  else if (b.hasVideo && b.hasAudio) && !(a.hasVideo && a.hasAudio) then 1
  else
    localeCompareNumeric (jsOrStr b.qualityLabel "") (jsOrStr a.qualityLabel "")

/-- Boolean ordering derived from the comparator (`cmp a b <= 0`). -/
def formatLe (a b : FormatDescriptor) : Bool := cmpFormats a b ≤ 0

/-- Stable insertion into a sorted list: the inserted element, which
originates earlier in the input, goes before the first element it
compares less-or-equal to. -/
def jsInsert {α : Type} (le : α → α → Bool) (a : α) : List α → List α
  | [] => [a]
  | b :: l => if le a b then a :: b :: l else b :: jsInsert le a l

/-- Stable insertion sort, the model of `Array.prototype.sort` with a
consistent comparator. -/
def jsSortArr {α : Type} (le : α → α → Bool) : List α → List α
  | [] => []
  | a :: l => jsInsert le a (jsSortArr le l)

/-- Sorting a descriptor list with the shared comparator. -/
def sortFormats (l : List FormatDescriptor) : List FormatDescriptor :=
  jsSortArr formatLe l

/-- Normalization of one library-backend entry (server.js:56-65). -/
def normalizeYtdl (f : RawYtdlFormat) : FormatDescriptor where
  itag := JSVal.num f.itag
  container := f.container
  qualityLabel := jsOrNullStr f.qualityLabel
  bitrate := jsOrNullQ f.bitrate
  audioBitrate := jsOrNullQ f.audioBitrate
  hasVideo := f.hasVideo
  hasAudio := f.hasAudio
  contentLength :=
    match jsOrNullStr f.contentLength with
    | some s => JSVal.str s
    | none => JSVal.null

/-- The `/api/formats` primary pipeline (server.js:54-73): filter entries
with a truthy container and some capability, normalize, sort. -/
def primaryFormats (formats : List RawYtdlFormat) : List FormatDescriptor :=
  sortFormats
    ((formats.filter fun f => strTruthy f.container && (f.hasVideo || f.hasAudio)).map
      normalizeYtdl)

/-- JS `f.format_id || f.format || null` producing a JS value. -/
def ytDlpItag (f : RawYtDlpFormat) : JSVal :=
  match jsOrOptStr f.format_id f.format with
  | some s => JSVal.str s
  | none => JSVal.null

/-- JS `f.filesize || f.filesize_approx || null` on numeric fields. -/
def ytDlpSize (f : RawYtDlpFormat) : JSVal :=
  match jsOrNullQ f.filesize with
  | some q => JSVal.num q
  | none =>
    match jsOrNullQ f.filesize_approx with
    | some q => JSVal.num q
    | none => JSVal.null

/-- Normalization of one `yt-dlp` entry (server.js:117-126). -/
def normalizeYtDlp (f : RawYtDlpFormat) : FormatDescriptor where
  itag := ytDlpItag f
  container := jsOrNullStr f.ext
  qualityLabel := jsOrOptStr f.format_note f.format
  bitrate := jsOrNullQ f.tbr
  audioBitrate := jsOrNullQ f.abr
  hasVideo := strTruthy f.vcodec && (f.vcodec != some ("none"))
  hasAudio := strTruthy f.acodec && (f.acodec != some ("none"))
  contentLength := ytDlpSize f

/-- The secondary-backend resolver pipeline, the pure part of
`getFormatsWithYtDlp` (server.js:115-134): filter entries with a truthy
`ext` and at least one codec, normalize, sort. -/
def ytDlpFormats (formats : List RawYtDlpFormat) : List FormatDescriptor :=
  sortFormats
    ((formats.filter fun f =>
        strTruthy f.ext && ((f.acodec != some ("none")) || (f.vcodec != some ("none")))).map
      normalizeYtDlp)

/-- Membership in a stable insertion is membership in the old list or
being the inserted element. -/
theorem mem_jsInsert {α : Type} (le : α → α → Bool) (a x : α) (l : List α) :
    x ∈ jsInsert le a l ↔ x = a ∨ x ∈ l := by
  induction l with
  | nil => simp [jsInsert]
  | cons b t ih =>
    by_cases h : le a b = true
    · simp only [jsInsert]
      rw [if_pos h, List.mem_cons]
    · simp only [jsInsert]
      rw [if_neg h, List.mem_cons, List.mem_cons, ih]
      tauto

/-- Insertion preserves pairwise order for any transitive relation
bracketing the boolean comparator from both sides. -/
theorem pairwise_jsInsert {α : Type} (le : α → α → Bool) (P : α → α → Prop)
    (h1 : ∀ a b, le a b = true → P a b) (h2 : ∀ a b, le a b = false → P b a)
    (ht : ∀ a b c, P a b → P b c → P a c) (a : α) (l : List α)
    (hl : l.Pairwise P) : (jsInsert le a l).Pairwise P := by
  induction l with
  | nil => simp [jsInsert]
  | cons b t ih =>
    rcases List.pairwise_cons.mp hl with ⟨hb, htl⟩
    by_cases h : le a b = true
    · simp only [jsInsert]
      rw [if_pos h]
      refine List.pairwise_cons.mpr ⟨?_, hl⟩
      intro x hx
      rcases List.mem_cons.mp hx with rfl | hx'
      · exact h1 a _ h
      · exact ht a b x (h1 a b h) (hb x hx')
    · simp only [jsInsert]
      rw [if_neg h]
      refine List.pairwise_cons.mpr ⟨?_, ih htl⟩
      intro x hx
      rcases (mem_jsInsert le a x t).mp hx with rfl | hx'
      · exact h2 x b (by simpa using h)
      · exact hb x hx'

/-- The stable sort produces a pairwise-ordered list for any transitive
relation bracketing the comparator. -/
theorem pairwise_jsSortArr {α : Type} (le : α → α → Bool) (P : α → α → Prop)
    (h1 : ∀ a b, le a b = true → P a b) (h2 : ∀ a b, le a b = false → P b a)
    (ht : ∀ a b c, P a b → P b c → P a c) (l : List α) :
    (jsSortArr le l).Pairwise P := by
  induction l with
  | nil => simp [jsSortArr]
  | cons a t ih => exact pairwise_jsInsert le P h1 h2 ht a _ ih

/-- When the comparator does not find the left entry strictly earlier,
an audio+video right entry forces an audio+video left entry. -/
theorem formatLe_av_left {a b : FormatDescriptor} (h : formatLe a b = true)
    (hb : (b.hasVideo && b.hasAudio) = true) : (a.hasVideo && a.hasAudio) = true := by
  by_contra ha
  rw [Bool.not_eq_true] at ha
  simp [formatLe, cmpFormats, hb, ha] at h

/-- When the comparator finds the left entry strictly later, an
audio+video left entry forces an audio+video right entry. -/
theorem formatLe_av_right {a b : FormatDescriptor} (h : formatLe a b = false)
    (ha : (a.hasVideo && a.hasAudio) = true) : (b.hasVideo && b.hasAudio) = true := by
  by_contra hb
  rw [Bool.not_eq_true] at hb
  simp [formatLe, cmpFormats, ha, hb] at h

/-- C5: for every input list of raw format entries, the descriptor list
produced by either backend's resolver pipeline is ordered so that every
entry with `hasAudio && hasVideo` precedes every entry lacking that
combination, regardless of the input ordering. -/
theorem C5_av_entries_first (raws : List RawYtdlFormat) (raws2 : List RawYtDlpFormat) :
    (primaryFormats raws).Pairwise
      (fun a b => (b.hasVideo && b.hasAudio) = true → (a.hasVideo && a.hasAudio) = true) ∧
    (ytDlpFormats raws2).Pairwise
      (fun a b => (b.hasVideo && b.hasAudio) = true → (a.hasVideo && a.hasAudio) = true) := by
  constructor <;>
    exact pairwise_jsSortArr formatLe _
      (fun a b h hb => formatLe_av_left h hb)
      (fun a b h ha => formatLe_av_right h ha)
      (fun a b c hab hbc hc => hab (hbc hc)) _

/-- Audio-only `yt-dlp` entry with quality note `medium` and the lower
audio bitrate, listed first in the raw input. -/
def c6RawLow : RawYtDlpFormat :=
  { ext := some ("m4a"), acodec := some ("mp4a"), vcodec := some ("none"),
    format_id := some ("139"), format := none, format_note := some ("medium"),
    tbr := none, abr := some 50, filesize := none, filesize_approx := none }

/-- Audio-only `yt-dlp` entry tying with `c6RawLow` on capability and
quality note but carrying the higher audio bitrate, listed second. -/
def c6RawHigh : RawYtDlpFormat :=
  { ext := some ("m4a"), acodec := some ("mp4a"), vcodec := some ("none"),
    format_id := some ("140"), format := none, format_note := some ("medium"),
    tbr := none, abr := some 128, filesize := none, filesize_approx := none }

/-- C6 counterexample: two secondary-backend entries that tie on the
audio+video criterion and on the quality comparison (comparator value 0)
are kept in input order by the resolver, leaving the lower audio bitrate
first — not the higher bitrate first as claimed. -/
theorem C6_cex :
    ytDlpFormats [c6RawLow, c6RawHigh] =
      [normalizeYtDlp c6RawLow, normalizeYtDlp c6RawHigh] ∧
    cmpFormats (normalizeYtDlp c6RawLow) (normalizeYtDlp c6RawHigh) = 0 ∧
    (normalizeYtDlp c6RawLow).audioBitrate = some 50 ∧
    (normalizeYtDlp c6RawHigh).audioBitrate = some 128 := by
  refine ⟨?_, ?_, ?_, ?_⟩ <;> rfl

/-- C6 amended: the secondary backend's resolver applies no audio-bitrate
tie-break at all — its comparator is insensitive to the `audioBitrate`
field, so entries tying on the audio+video criterion and the quality
comparison retain their input order under the stable sort. -/
theorem C6_comparator_ignores_bitrate (a b : FormatDescriptor) (x y : Option ℚ) :
    cmpFormats { a with audioBitrate := x } { b with audioBitrate := y } =
      cmpFormats a b := rfl

/-- Query parameters of a `/api/download` request (server.js:145-152). -/
structure DownloadQuery where
  url : Option String
  type : Option String
  requestId : Option String
  itag : Option String
  api_key : Option String
deriving DecidableEq

/-- The one request header the download handler reads. -/
structure DownloadHeaders where
  xApiKey : Option String
deriving DecidableEq

/-- Environment configuration consumed by the download handler. -/
structure Env where
  apiKey : Option String
deriving DecidableEq

/-- JS `req.headers['x-api-key'] || req.query.api_key` (server.js:152). -/
def providedKey (h : DownloadHeaders) (q : DownloadQuery) : Option String :=
  if strTruthy h.xApiKey then h.xApiKey else q.api_key

/-- The API key gate condition (server.js:151-155): enforcement is active
when `API_KEY` is truthy, and it blocks when the provided key is missing
or mismatched. -/
def keyBlocked (env : Env) (q : DownloadQuery) (h : DownloadHeaders) : Bool :=
  strTruthy env.apiKey &&
    (!strTruthy (providedKey h q) || (providedKey h q != env.apiKey))

/-- JS `videoUrl && ytdl.validateURL(videoUrl)` with the external
validator abstracted as a boolean function. -/
def urlOk (validateURL : String → Bool) (url : Option String) : Bool :=
  match jsOrNullStr url with
  | some u => validateURL u
  | none => false

/-- Outcome of the `/api/download` handler head. `proceed` is the point
where the primary backend (`ytdl.getInfo`) is first invoked; the two
rejection outcomes return before either backend is touched. -/
inductive DownloadGateResult
  | unauthorized
  | badRequest
  | proceed (url : String) (mediaType : String)
deriving DecidableEq

/-- The `/api/download` handler head (server.js:144-160): optional API
key enforcement first, then URL validation. -/
def downloadGate (env : Env) (validateURL : String → Bool)
    (q : DownloadQuery) (h : DownloadHeaders) : DownloadGateResult :=
  if keyBlocked env q h then DownloadGateResult.unauthorized
  else
    match jsOrNullStr q.url with
    | none => DownloadGateResult.badRequest
    | some u =>
      if validateURL u then
        DownloadGateResult.proceed u (jsOrStr q.type ("video"))
      else DownloadGateResult.badRequest

/-- Outcome of the `/api/formats` handler head (server.js:47-51).
`proceed` is the point where the primary backend is invoked; the
secondary backend is only reachable from the `proceed` branch's failure
path, so a `badRequest` outcome invokes neither backend. -/
inductive FormatsGateResult
  | badRequest
  | proceed (url : String)
deriving DecidableEq

/-- The `/api/formats` handler head: URL validation only. -/
def formatsGate (validateURL : String → Bool) (url : Option String) :
    FormatsGateResult :=
  match jsOrNullStr url with
  | none => FormatsGateResult.badRequest
  | some u =>
    if validateURL u then FormatsGateResult.proceed u
    else FormatsGateResult.badRequest

/-- C2 counterexample: with an API key configured and no key provided, a
request with a missing url receives 401 from `/api/download`, not the
400 the claim asserts for every malformed or missing source URL. -/
theorem C2_cex :
    downloadGate { apiKey := some ("k") } (fun _ => false)
        { url := none, type := none, requestId := none, itag := none, api_key := none }
        { xApiKey := none } = DownloadGateResult.unauthorized ∧
      DownloadGateResult.unauthorized ≠ DownloadGateResult.badRequest :=
  ⟨by decide, by decide⟩

/-- C2 amended: for every malformed or missing source URL, `/api/formats`
returns 400, and `/api/download` returns 400 whenever the API key gate
does not block the request (in particular whenever no key is configured);
a request blocked by the key gate receives 401 instead. In all of these
outcomes neither backend is invoked (the gates return before the first
backend call). -/
theorem C2_invalid_url_rejected (env : Env) (validateURL : String → Bool)
    (q : DownloadQuery) (h : DownloadHeaders)
    (hurl : urlOk validateURL q.url = false) :
    formatsGate validateURL q.url = FormatsGateResult.badRequest ∧
    (keyBlocked env q h = false →
      downloadGate env validateURL q h = DownloadGateResult.badRequest) ∧
    (keyBlocked env q h = true →
      downloadGate env validateURL q h = DownloadGateResult.unauthorized) := by
  refine ⟨?_, ?_, ?_⟩
  · unfold formatsGate
    cases hu : jsOrNullStr q.url with
    | none => rfl
    | some u =>
      have hv : validateURL u = false := by
        unfold urlOk at hurl
        rw [hu] at hurl
        exact hurl
      simp [hv]
  · intro hk
    unfold downloadGate
    rw [if_neg (by simp [hk])]
    cases hu : jsOrNullStr q.url with
    | none => rfl
    | some u =>
      have hv : validateURL u = false := by
        unfold urlOk at hurl
        rw [hu] at hurl
        exact hurl
      simp [hv]
  · intro hk
    unfold downloadGate
    rw [if_pos hk]

/-- C2 witness: a concrete malformed-url request with no API key
configured is rejected with 400 by both handlers. -/
theorem C2_witness :
    formatsGate (fun _ => false) (some ("notaurl")) = FormatsGateResult.badRequest ∧
    downloadGate { apiKey := none } (fun _ => false)
        { url := some ("notaurl"), type := none, requestId := none, itag := none,
          api_key := none }
        { xApiKey := none } = DownloadGateResult.badRequest := by
  have h := C2_invalid_url_rejected { apiKey := none } (fun _ => false)
    { url := some ("notaurl"), type := none, requestId := none, itag := none,
      api_key := none }
    { xApiKey := none } (by decide)
  exact ⟨h.1, h.2.1 (by decide)⟩

/-- C9: when an API key is configured (truthy), a missing or mismatched
provided key yields 401 — never 400 — for every url value, including
missing and malformed ones. -/
theorem C9_auth_checked_before_url (env : Env) (validateURL : String → Bool)
    (q : DownloadQuery) (h : DownloadHeaders)
    (hkey : strTruthy env.apiKey = true)
    (hprov : strTruthy (providedKey h q) = false ∨ providedKey h q ≠ env.apiKey) :
    downloadGate env validateURL q h = DownloadGateResult.unauthorized := by
  have hb : keyBlocked env q h = true := by
    unfold keyBlocked
    rw [hkey]
    rcases hprov with h1 | h1
    · simp [h1]
    · simp [h1, bne_iff_ne]
  unfold downloadGate
  rw [if_pos hb]

/-- C9 witness: a concrete request with a wrong key and a missing url is
answered 401. -/
theorem C9_witness :
    downloadGate { apiKey := some ("k") } (fun _ => true)
        { url := none, type := none, requestId := none, itag := none,
          api_key := some ("wrong") }
        { xApiKey := none } = DownloadGateResult.unauthorized :=
  C9_auth_checked_before_url _ _ _ _ (by decide) (Or.inr (by decide))

/-- Model of the external `ytdl.chooseFormat(info.formats, ...)` call at
server.js:183 as the handler relies on it: look up the format whose
`itag` matches the requested identifier, yielding nothing when no entry
matches. -/
def chooseFormatModel (formats : List RawYtdlFormat) (quality : String) :
    Option RawYtdlFormat :=
  formats.find? (fun f => toString f.itag == quality)

/-- The per-type policy filter built by the download handler
(server.js:171-176): audio wants a truthy audioBitrate and no video;
video wants an mp4 container with video. -/
def downloadFilter (mediaType : String) (f : RawYtdlFormat) : Bool :=
  if mediaType == "audio" then (jsOrNullQ f.audioBitrate).isSome && !f.hasVideo
  else (f.container == some ("mp4")) && f.hasVideo

/-- The stream configuration chosen by `startYtdlStream`
(server.js:180-191): either an explicit matched format, or the
highest-quality policy pick filtered by media type. -/
inductive StreamChoice
  | explicitFmt (f : RawYtdlFormat)
  | policyPick (quality : String) (mediaType : String)
deriving DecidableEq

/-- Format selection of `startYtdlStream`: an explicit `itag` is matched
against the primary backend's known formats; a missing or unmatched
identifier falls back to the highest-quality policy pick. -/
def startYtdlSelection (formats : List RawYtdlFormat) (itag : Option String)
    (mediaType : String) : StreamChoice :=
  match jsOrNullStr itag with
  | some quality =>
    match chooseFormatModel formats quality with
    | some chosen =>
      if chosen.itag ≠ 0 then StreamChoice.explicitFmt chosen
      else StreamChoice.policyPick ("highest") mediaType
    | none => StreamChoice.policyPick ("highest") mediaType
  | none => StreamChoice.policyPick ("highest") mediaType

/-- C7: when the explicit format identifier matches none of the primary
backend's known formats, the orchestrator selects the highest-quality
policy pick for the requested media type and proceeds instead of failing
the request. -/
theorem C7_unknown_itag_falls_back (formats : List RawYtdlFormat)
    (itag : Option String) (mediaType : String) (quality : String)
    (hq : jsOrNullStr itag = some quality)
    (hmiss : ∀ f ∈ formats, toString f.itag ≠ quality) :
    startYtdlSelection formats itag mediaType =
      StreamChoice.policyPick ("highest") mediaType := by
  unfold startYtdlSelection
  rw [hq]
  have hnone : chooseFormatModel formats quality = none := by
    unfold chooseFormatModel
    apply List.find?_eq_none.mpr
    intro f hf
    simpa using hmiss f hf
  simp [hnone]

/-- C7 witness: a concrete request with `itag=999999` against a catalog
that does not contain it selects the policy pick. -/
theorem C7_witness :
    startYtdlSelection
        [{ itag := 18, container := some ("mp4"), qualityLabel := some ("360p"),
           bitrate := none, audioBitrate := some 96, hasVideo := true,
           hasAudio := true, contentLength := none }]
        (some ("999999")) ("video") =
      StreamChoice.policyPick ("highest") ("video") :=
  C7_unknown_itag_falls_back _ _ _ ("999999") (by decide) (by decide)

/-- One progress channel (an `/api/progress` response object): the SSE
writes performed on it and whether it was ended. -/
structure Channel where
  log : List String
  ended : Bool
deriving DecidableEq

/-- The SSE side of the server. `channels` records every channel object
ever known (writes persist on the connection object itself), while
`registry` models the key set of the `sseMap` (server.js:28). -/
structure SseState where
  channels : List (String × Channel)
  registry : List String
deriving DecidableEq

/-- Update the channel object stored under a key, first occurrence. -/
def updateChan (rid : String) (f : Channel → Channel) :
    List (String × Channel) → List (String × Channel)
  | [] => []
  | (k, c) :: rest =>
    if k == rid then (k, f c) :: rest else (k, c) :: updateChan rid f rest

/-- `sseRes.write(msg)` on the channel registered under `rid`. -/
def sseWrite (s : SseState) (rid msg : String) : SseState :=
  { s with channels := updateChan rid (fun c => { c with log := c.log ++ [msg] }) s.channels }

/-- `sseRes.end()` on the channel registered under `rid`. -/
def sseEndChan (s : SseState) (rid : String) : SseState :=
  { s with channels := updateChan rid (fun c => { c with ended := true }) s.channels }

/-- `sseMap.delete(rid)`: the key is removed from the registry; the
underlying connection object itself persists. -/
def sseDelete (s : SseState) (rid : String) : SseState :=
  { s with registry := s.registry.filter (fun k => !(k == rid)) }

/-- All writes ever performed on the channel object known under `rid`. -/
def chanLog (s : SseState) (rid : String) : List String :=
  match s.channels.lookup rid with
  | some c => c.log
  | none => []

/-- Whether the channel object known under `rid` has been ended. -/
def chanEnded (s : SseState) (rid : String) : Bool :=
  match s.channels.lookup rid with
  | some c => c.ended
  | none => false

/-- Math.round over an exact rational: half-values round toward positive
infinity, as in JS. -/
def mathRound (q : ℚ) : ℤ := ⌊q + 1 / 2⌋

/-- JSON value appearing in a progress payload. -/
inductive PVal
  | num (n : ℤ)
  | null
deriving DecidableEq

/-- Field list of `JSON.stringify(\x7b downloaded, total, percent: pct \x7d)`
(server.js:198-199).  `pct` is `Math.round((downloaded / total) * 100)`
when `total` is truthy and JS `null` otherwise (float arithmetic is
modelled exactly over ℚ); `stringify` omits an `undefined` `total`
property but keeps the `null`-valued `percent` property. -/
def progressFields (downloaded : ℕ) (total : Option ℕ) : List (String × PVal) :=
  let pct : PVal :=
    match total with
    | some t =>
      if t = 0 then PVal.null
      else PVal.num (mathRound ((downloaded : ℚ) / (t : ℚ) * 100))
    | none => PVal.null
  [(("downloaded" : String), PVal.num downloaded)] ++
    (match total with
     | some t => [(("total" : String), PVal.num t)]
     | none => []) ++
    [(("percent" : String), pct)]

/-- Serialization of one payload value. -/
def pvalToString : PVal → String
  | PVal.num n => toString n
  | PVal.null => "null"

/-- Serialization of the payload object, fields in insertion order. -/
def stringifyFields (fields : List (String × PVal)) : String :=
  "\x7b" ++
    String.intercalate ","
      (fields.map fun kv => "\"" ++ kv.1 ++ "\":" ++ pvalToString kv.2) ++
    "\x7d"

/-- The JSON text written for one progress event. -/
def progressPayload (downloaded : ℕ) (total : Option ℕ) : String :=
  stringifyFields (progressFields downloaded total)

/-- The SSE line written for one progress event (server.js:200). -/
def dataLine (downloaded : ℕ) (total : Option ℕ) : String :=
  "data: " ++ progressPayload downloaded total ++ "\n\n"

/-- The `stream.on('progress')` handler (server.js:194-207): with a
truthy `requestId` and a registered channel, write the payload; when the
known total has been reached, additionally write the terminal `done`
event, end the channel and delete it from the registry. -/
def onProgress (requestId : Option String) (s : SseState)
    (downloaded : ℕ) (total : Option ℕ) : SseState :=
  match jsOrNullStr requestId with
  | none => s
  | some rid =>
    if rid ∈ s.registry then
      match total with
      | some t =>
        if t ≠ 0 ∧ t ≤ downloaded then
          sseDelete
            (sseEndChan
              (sseWrite
                (sseWrite (sseWrite s rid (dataLine downloaded (some t)))
                  rid "event: done\n")
                rid "data: \x7b\x7d\n\n")
              rid)
            rid
        else sseWrite s rid (dataLine downloaded (some t))
      | none => sseWrite s rid (dataLine downloaded none)
    else s

/-- C8 counterexample: with an unknown total the serialized progress
event still contains a `percent` field — it carries JSON `null` rather
than being omitted as the claim states. -/
theorem C8_cex :
    (progressFields 5 none).map Prod.fst = [("downloaded" : String), "percent"] ∧
    List.lookup ("percent") (progressFields 5 none) = some PVal.null :=
  ⟨by decide, by decide⟩

/-- C8 amended: when the total is known and non-zero the `percent` field
equals `round(downloaded / total * 100)` (computed here both as the
rational rounding of the claim and as the equivalent integer formula);
when the total is unknown or zero, the `percent` field is present with
JSON value `null` rather than omitted. -/
theorem C8_percent_value (d t : ℕ) (ht : t ≠ 0) :
    List.lookup ("percent") (progressFields d (some t)) =
      some (PVal.num (mathRound ((d : ℚ) / (t : ℚ) * 100))) ∧
    mathRound ((d : ℚ) / (t : ℚ) * 100) = ((200 * d + t) / (2 * t) : ℕ) ∧
    List.lookup ("percent") (progressFields d none) = some PVal.null ∧
    List.lookup ("percent") (progressFields d (some 0)) = some PVal.null := by
  refine ⟨?_, ?_, ?_, ?_⟩
  · simp [progressFields, List.lookup, ht]
  · have ht' : (t : ℚ) ≠ 0 := Nat.cast_ne_zero.mpr ht
    have h2 : (d : ℚ) / (t : ℚ) * 100 + 1 / 2 =
        ((200 * d + t : ℕ) : ℚ) / ((2 * t : ℕ) : ℚ) := by
      field_simp
      ring
    unfold mathRound
    rw [h2, Rat.floor_natCast_div_natCast]
    norm_cast
  · simp [progressFields, List.lookup]
  · simp [progressFields, List.lookup]

/-- C8 witness: one byte of two total serializes as fifty percent. -/
theorem C8_witness :
    List.lookup ("percent") (progressFields 1 (some 2)) = some (PVal.num 50) := by
  obtain ⟨h1, h2, _, _⟩ := C8_percent_value 1 2 (by decide)
  rw [h1, h2]
  decide

/-- Phase of the `/api/download` response stream: piping the primary
library stream, piping the fallback process stdout, or ended. -/
inductive Phase
  | primary
  | fallback
  | ended
deriving DecidableEq

/-- Per-request orchestration state of `/api/download` after the gate:
the SSE state, whether any response byte has been flushed to the caller
(`res.headersSent`), whether the response was ended, the argument
vectors of the spawned fallback processes, and the write-only
`streamErrHandled` flag of server.js:179. -/
structure DlState where
  sse : SseState
  headersSent : Bool
  resEnded : Bool
  fallbackSpawns : List (List String)
  streamErrHandled : Bool
  phase : Phase
deriving DecidableEq

/-- State at the start of streaming: headers set but not flushed, no
byte sent, no fallback spawned. -/
def initState (sse0 : SseState) : DlState :=
  { sse := sse0, headersSent := false, resEnded := false, fallbackSpawns := [],
    streamErrHandled := false, phase := Phase.primary }

/-- Media-type `-f` selector used when no explicit `itag` was supplied
(server.js:226). -/
def typeFormatArg (mediaType : String) : List String :=
  if mediaType == "audio" then [("-f" : String), "bestaudio"]
  else [("-f" : String), "best"]

/-- The `-f` selector of the fallback spawn: the explicit `itag` when
truthy, else the media-type filter (server.js:226). -/
def fallbackFormatArg (itag : Option String) (mediaType : String) : List String :=
  match jsOrNullStr itag with
  | some it => [("-f" : String), it]
  | none => typeFormatArg mediaType

/-- Full `yt-dlp` argument vector of a fallback spawn (server.js:227). -/
def fallbackArgs (itag : Option String) (mediaType url : String) : List String :=
  [("-o" : String), "-", "--no-warnings", "--no-playlist"] ++
    fallbackFormatArg itag mediaType ++ [url]

/-- `tryYtDlpFallback` (server.js:219-244): when headers have already
been sent the response is simply ended and no process is spawned;
otherwise the external process is spawned and its stdout becomes the
response stream. -/
def tryYtDlpFallbackStep (itag : Option String) (mediaType url : String)
    (st : DlState) : DlState :=
  if st.headersSent then { st with resEnded := true, phase := Phase.ended }
  else
    { st with
      fallbackSpawns := st.fallbackSpawns ++ [fallbackArgs itag mediaType url],
      phase := Phase.fallback }

/-- Observable events during the streaming phase of one download:
a data chunk reaching the caller's response, a primary-stream progress
event, a primary-stream error, and the `/api/progress` client of channel
`rid` disconnecting. -/
inductive DlEvent
  | chunk
  | progress (downloaded : ℕ) (total : Option ℕ)
  | streamError
  | sseClose (rid : String)
deriving DecidableEq

/-- One step of the download orchestration (server.js:180-244): a chunk
flushes headers, a progress event runs the progress handler, a stream
error runs the error handler (which sets the flag and attempts the
fallback), and an `/api/progress` disconnect deletes that channel from
the registry (server.js:41-43). -/
def dlStep (requestId itag : Option String) (mediaType url : String)
    (st : DlState) : DlEvent → DlState
  | DlEvent.chunk => { st with headersSent := true }
  | DlEvent.progress d t => { st with sse := onProgress requestId st.sse d t }
  | DlEvent.streamError =>
      tryYtDlpFallbackStep itag mediaType url { st with streamErrHandled := true }
  | DlEvent.sseClose rid => { st with sse := sseDelete st.sse rid }

/-- Processing a whole event trace. -/
def dlRun (requestId itag : Option String) (mediaType url : String)
    (st : DlState) (evs : List DlEvent) : DlState :=
  evs.foldl (dlStep requestId itag mediaType url) st

/-- Splitting a run over an appended trace. -/
theorem dlRun_append (requestId itag : Option String) (mediaType url : String)
    (st : DlState) (l1 l2 : List DlEvent) :
    dlRun requestId itag mediaType url st (l1 ++ l2) =
      dlRun requestId itag mediaType url
        (dlRun requestId itag mediaType url st l1) l2 := by
  unfold dlRun
  rw [List.foldl_append]

/-- Events other than a stream error never spawn a fallback process. -/
theorem fallbackSpawns_constant (requestId itag : Option String)
    (mediaType url : String) (st : DlState) (evs : List DlEvent)
    (hev : DlEvent.streamError ∉ evs) :
    (dlRun requestId itag mediaType url st evs).fallbackSpawns =
      st.fallbackSpawns := by
  induction evs generalizing st with
  | nil => rfl
  | cons e rest ih =>
    have hne : e ≠ DlEvent.streamError := fun h => hev (by simp [h])
    have hrest : DlEvent.streamError ∉ rest := fun h => hev (List.mem_cons_of_mem _ h)
    have h1 : (dlStep requestId itag mediaType url st e).fallbackSpawns =
        st.fallbackSpawns := by
      cases e with
      | chunk => rfl
      | progress d t => rfl
      | streamError => exact absurd rfl hne
      | sseClose r => rfl
    show (dlRun requestId itag mediaType url
      (dlStep requestId itag mediaType url st e) rest).fallbackSpawns = st.fallbackSpawns
    rw [ih _ hrest, h1]

/-- Without a chunk event the byte-sent flag never changes. -/
theorem headersSent_constant (requestId itag : Option String)
    (mediaType url : String) (st : DlState) (evs : List DlEvent)
    (hev : DlEvent.chunk ∉ evs) :
    (dlRun requestId itag mediaType url st evs).headersSent = st.headersSent := by
  induction evs generalizing st with
  | nil => rfl
  | cons e rest ih =>
    have hne : e ≠ DlEvent.chunk := fun h => hev (by simp [h])
    have hrest : DlEvent.chunk ∉ rest := fun h => hev (List.mem_cons_of_mem _ h)
    have h1 : (dlStep requestId itag mediaType url st e).headersSent =
        st.headersSent := by
      cases e with
      | chunk => exact absurd rfl hne
      | progress d t => rfl
      | streamError =>
        show (tryYtDlpFallbackStep itag mediaType url
          { st with streamErrHandled := true }).headersSent = st.headersSent
        unfold tryYtDlpFallbackStep
        by_cases hh : ({ st with streamErrHandled := true } : DlState).headersSent = true
        · rw [if_pos hh]
        · rw [if_neg hh]
      | sseClose r => rfl
    show (dlRun requestId itag mediaType url
      (dlStep requestId itag mediaType url st e) rest).headersSent = st.headersSent
    rw [ih _ hrest, h1]

/-- The byte-sent flag is never cleared. -/
theorem headersSent_mono (requestId itag : Option String)
    (mediaType url : String) (st : DlState) (evs : List DlEvent)
    (h : st.headersSent = true) :
    (dlRun requestId itag mediaType url st evs).headersSent = true := by
  induction evs generalizing st with
  | nil => exact h
  | cons e rest ih =>
    have h1 : (dlStep requestId itag mediaType url st e).headersSent = true := by
      cases e with
      | chunk => rfl
      | progress d t => exact h
      | streamError =>
        show (tryYtDlpFallbackStep itag mediaType url
          { st with streamErrHandled := true }).headersSent = true
        unfold tryYtDlpFallbackStep
        by_cases hh : ({ st with streamErrHandled := true } : DlState).headersSent = true
        · rw [if_pos hh]
          exact h
        · rw [if_neg hh]
          exact h
      | sseClose r => exact h
    exact ih _ h1

/-- After a chunk event the byte-sent flag is set for good. -/
theorem headersSent_after_chunk (requestId itag : Option String)
    (mediaType url : String) (st : DlState) (evs : List DlEvent)
    (hev : DlEvent.chunk ∈ evs) :
    (dlRun requestId itag mediaType url st evs).headersSent = true := by
  induction evs generalizing st with
  | nil => exact absurd hev (List.not_mem_nil _)
  | cons e rest ih =>
    show (dlRun requestId itag mediaType url
      (dlStep requestId itag mediaType url st e) rest).headersSent = true
    rcases List.mem_cons.mp hev with rfl | hmem
    · exact headersSent_mono requestId itag mediaType url _ rest rfl
    · exact ih _ hmem

/-- Events other than a stream error never end the response. -/
theorem resEnded_constant (requestId itag : Option String)
    (mediaType url : String) (st : DlState) (evs : List DlEvent)
    (hev : DlEvent.streamError ∉ evs) :
    (dlRun requestId itag mediaType url st evs).resEnded = st.resEnded := by
  induction evs generalizing st with
  | nil => rfl
  | cons e rest ih =>
    have hne : e ≠ DlEvent.streamError := fun h => hev (by simp [h])
    have hrest : DlEvent.streamError ∉ rest := fun h => hev (List.mem_cons_of_mem _ h)
    have h1 : (dlStep requestId itag mediaType url st e).resEnded = st.resEnded := by
      cases e with
      | chunk => rfl
      | progress d t => rfl
      | streamError => exact absurd rfl hne
      | sseClose r => rfl
    show (dlRun requestId itag mediaType url
      (dlStep requestId itag mediaType url st e) rest).resEnded = st.resEnded
    rw [ih _ hrest, h1]

/-- C1 counterexample: a download with an explicit `itag=999999` whose
primary stream errors before any byte was sent spawns the fallback with
`-f 999999` — the explicit identifier — and not with the media-type
filter (`-f best`) that the claim asserts is used even when an explicit
`requestedFormatId` was supplied. -/
theorem C1_cex :
    (dlRun (some ("r")) (some ("999999")) ("video") ("u")
        (initState { channels := [], registry := [] })
        [DlEvent.streamError]).fallbackSpawns =
      [[("-o" : String), "-", "--no-warnings", "--no-playlist", "-f", "999999", "u"]] ∧
    typeFormatArg ("video") = [("-f" : String), "best"] ∧
    [("-f" : String), "999999"] ≠ [("-f" : String), "best"] :=
  ⟨by decide, by decide, by decide⟩

/-- C1 amended: when the primary stream errors before any byte has been
delivered, the secondary backend is attempted exactly once, invoked with
the explicit `requestedFormatId` when one was supplied and with the
media-type filter only when none was; when the error comes after at
least one delivered byte, no secondary attempt occurs and the connection
is terminated. -/
theorem C1_fallback_policy (requestId itag : Option String)
    (mediaType url : String) (sse0 : SseState) (pre post : List DlEvent)
    (hpre : DlEvent.streamError ∉ pre) (hpost : DlEvent.streamError ∉ post) :
    (DlEvent.chunk ∉ pre →
      (dlRun requestId itag mediaType url (initState sse0)
          (pre ++ DlEvent.streamError :: post)).fallbackSpawns =
        [fallbackArgs itag mediaType url]) ∧
    (DlEvent.chunk ∈ pre →
      (dlRun requestId itag mediaType url (initState sse0)
          (pre ++ DlEvent.streamError :: post)).fallbackSpawns = [] ∧
      (dlRun requestId itag mediaType url (initState sse0)
          (pre ++ DlEvent.streamError :: post)).resEnded = true) ∧
    (jsOrNullStr itag = none →
      fallbackArgs itag mediaType url =
        [("-o" : String), "-", "--no-warnings", "--no-playlist"] ++
          typeFormatArg mediaType ++ [url]) := by
  have hsplit : dlRun requestId itag mediaType url (initState sse0)
      (pre ++ DlEvent.streamError :: post) =
    dlRun requestId itag mediaType url
      (dlStep requestId itag mediaType url
        (dlRun requestId itag mediaType url (initState sse0) pre)
        DlEvent.streamError)
      post := by
    rw [dlRun_append]
    rfl
  have hspre : (dlRun requestId itag mediaType url (initState sse0) pre).fallbackSpawns
      = [] :=
    fallbackSpawns_constant requestId itag mediaType url _ pre hpre
  refine ⟨?_, ?_, ?_⟩
  · intro hchunk
    have hh : (dlRun requestId itag mediaType url (initState sse0) pre).headersSent
        = false :=
      headersSent_constant requestId itag mediaType url _ pre hchunk
    rw [hsplit, fallbackSpawns_constant requestId itag mediaType url _ post hpost]
    simp [dlStep, tryYtDlpFallbackStep, hh, hspre]
  · intro hchunk
    have hh : (dlRun requestId itag mediaType url (initState sse0) pre).headersSent
        = true :=
      headersSent_after_chunk requestId itag mediaType url _ pre hchunk
    constructor
    · rw [hsplit, fallbackSpawns_constant requestId itag mediaType url _ post hpost]
      simp [dlStep, tryYtDlpFallbackStep, hh, hspre]
    · rw [hsplit, resEnded_constant requestId itag mediaType url _ post hpost]
      simp [dlStep, tryYtDlpFallbackStep, hh]
  · intro hmiss
    simp [fallbackArgs, fallbackFormatArg, hmiss]

/-- C1 witness: a progress event, then an error with no byte delivered —
exactly one fallback spawn carrying the media-type filter. -/
theorem C1_witness :
    (dlRun none none ("audio") ("u")
        (initState { channels := [], registry := [] })
        ([DlEvent.progress 1 none] ++ DlEvent.streamError :: [])).fallbackSpawns =
      [fallbackArgs none ("audio") ("u")] :=
  (C1_fallback_policy none none ("audio") ("u") { channels := [], registry := [] }
    [DlEvent.progress 1 none] [] (by decide) (by decide)).1 (by decide)

/-- Updating a key rewrites its first stored channel through `f`. -/
theorem lookup_updateChan_self (rid : String) (f : Channel → Channel)
    (chs : List (String × Channel)) :
    (updateChan rid f chs).lookup rid = (chs.lookup rid).map f := by
  induction chs with
  | nil => rfl
  | cons p rest ih =>
    obtain ⟨k, c⟩ := p
    by_cases hk : (k == rid) = true
    · have hk' : (rid == k) = true := by
        rw [beq_iff_eq] at hk ⊢
        exact hk.symm
      simp [updateChan, hk, List.lookup, hk']
    · have hkf : (k == rid) = false := by
        rwa [Bool.not_eq_true] at hk
      have hk' : (rid == k) = false := by
        rw [beq_eq_false_iff_ne] at hkf ⊢
        exact fun h => hkf h.symm
      simp [updateChan, hkf, List.lookup, hk', ih]

/-- Updating one key leaves every other key's stored channel intact. -/
theorem lookup_updateChan_ne (rid rid' : String) (f : Channel → Channel)
    (chs : List (String × Channel)) (hne : rid ≠ rid') :
    (updateChan rid' f chs).lookup rid = chs.lookup rid := by
  induction chs with
  | nil => rfl
  | cons p rest ih =>
    obtain ⟨k, c⟩ := p
    by_cases hk : (k == rid') = true
    · have hr : (rid == k) = false := by
        rw [beq_iff_eq] at hk
        rw [beq_eq_false_iff_ne]
        exact fun h => hne (h.trans hk)
      simp [updateChan, hk, List.lookup, hr]
    · by_cases hr : (rid == k) = true
      · simp [updateChan, hk, List.lookup, hr]
      · simp [updateChan, hk, List.lookup, hr, ih]

/-- The progress handler never touches a channel whose id is not in the
registry: its stored object and its absence are both preserved. -/
theorem onProgress_unregistered (ro : Option String) (s : SseState)
    (d : ℕ) (t : Option ℕ) (rid : String) (h : rid ∉ s.registry) :
    (onProgress ro s d t).channels.lookup rid = s.channels.lookup rid ∧
    rid ∉ (onProgress ro s d t).registry := by
  cases hro : jsOrNullStr ro with
  | none =>
    have heq : onProgress ro s d t = s := by
      simp only [onProgress, hro]
    rw [heq]
    exact ⟨rfl, h⟩
  | some rid' =>
    by_cases hr : rid' ∈ s.registry
    · have hne : rid ≠ rid' := fun he => h (he ▸ hr)
      cases t with
      | none =>
        have heq : onProgress ro s d none = sseWrite s rid' (dataLine d none) := by
          simp only [onProgress, hro, if_pos hr]
        rw [heq]
        exact ⟨lookup_updateChan_ne rid rid' _ s.channels hne, h⟩
      | some tv =>
        by_cases hc : tv ≠ 0 ∧ tv ≤ d
        · have heq : onProgress ro s d (some tv) =
              sseDelete
                (sseEndChan
                  (sseWrite
                    (sseWrite (sseWrite s rid' (dataLine d (some tv)))
                      rid' "event: done\n")
                    rid' "data: \x7b\x7d\n\n")
                  rid')
                rid' := by
            simp only [onProgress, hro, if_pos hr, if_pos hc]
          rw [heq]
          constructor
          · simp only [sseDelete, sseEndChan, sseWrite]
            rw [lookup_updateChan_ne rid rid' _ _ hne,
              lookup_updateChan_ne rid rid' _ _ hne,
              lookup_updateChan_ne rid rid' _ _ hne,
              lookup_updateChan_ne rid rid' _ _ hne]
          · intro hmem
            exact h (List.mem_of_mem_filter hmem)
        · have heq : onProgress ro s d (some tv) =
              sseWrite s rid' (dataLine d (some tv)) := by
            simp only [onProgress, hro, if_pos hr, if_neg hc]
          rw [heq]
          exact ⟨lookup_updateChan_ne rid rid' _ s.channels hne, h⟩
    · have heq : onProgress ro s d t = s := by
        simp only [onProgress, hro, if_neg hr]
      rw [heq]
      exact ⟨rfl, h⟩

/-- One orchestration step never touches an unregistered channel. -/
theorem dlStep_unregistered (ro itag : Option String) (mt url : String)
    (st : DlState) (e : DlEvent) (rid : String) (h : rid ∉ st.sse.registry) :
    (dlStep ro itag mt url st e).sse.channels.lookup rid =
      st.sse.channels.lookup rid ∧
    rid ∉ (dlStep ro itag mt url st e).sse.registry := by
  cases e with
  | chunk => exact ⟨rfl, h⟩
  | progress d t => exact onProgress_unregistered ro st.sse d t rid h
  | streamError =>
    show (tryYtDlpFallbackStep itag mt url
        { st with streamErrHandled := true }).sse.channels.lookup rid = _ ∧
      rid ∉ (tryYtDlpFallbackStep itag mt url
        { st with streamErrHandled := true }).sse.registry
    unfold tryYtDlpFallbackStep
    by_cases hh : ({ st with streamErrHandled := true } : DlState).headersSent = true
    · rw [if_pos hh]
      exact ⟨rfl, h⟩
    · rw [if_neg hh]
      exact ⟨rfl, h⟩
  | sseClose r =>
    exact ⟨rfl, fun hmem => h (List.mem_of_mem_filter hmem)⟩

/-- A whole run never touches an unregistered channel: once an id left
the registry, its log, its ended flag and its absence persist. -/
theorem dlRun_unregistered (ro itag : Option String) (mt url : String)
    (st : DlState) (evs : List DlEvent) (rid : String)
    (h : rid ∉ st.sse.registry) :
    (dlRun ro itag mt url st evs).sse.channels.lookup rid =
      st.sse.channels.lookup rid ∧
    rid ∉ (dlRun ro itag mt url st evs).sse.registry := by
  induction evs generalizing st with
  | nil => exact ⟨rfl, h⟩
  | cons e rest ih =>
    have hstep := dlStep_unregistered ro itag mt url st e rid h
    have hrest := ih (dlStep ro itag mt url st e) hstep.2
    exact ⟨hrest.1.trans hstep.1, hrest.2⟩

/-- A one-channel SSE state used by several concrete evaluations. -/
def regSse : SseState :=
  { channels := [(("r" : String), { log := [], ended := false })],
    registry := [("r" : String)] }

/-- C3: with a registered channel and a progress event reaching the full
known total, the channel receives the payload followed by the terminal
`done` event, is ended, and is removed from the registry; afterwards any
further event trace leaves that channel's log and its absence from the
registry untouched, so every subsequent push to that id is a no-op. -/
theorem C3_done_terminal (rid : String) (itag : Option String)
    (mediaType url : String) (st : DlState) (d t : ℕ) (st1 : DlState)
    (post : List DlEvent) (hrid : rid ≠ "")
    (hreg : rid ∈ st.sse.registry)
    (hch : ∃ c, st.sse.channels.lookup rid = some c)
    (ht : t ≠ 0) (hd : t ≤ d)
    (hst1 : st1 = dlStep (some rid) itag mediaType url st
      (DlEvent.progress d (some t))) :
    chanLog st1.sse rid =
      chanLog st.sse rid ++
        [dataLine d (some t), "event: done\n", "data: \x7b\x7d\n\n"] ∧
    chanEnded st1.sse rid = true ∧
    rid ∉ st1.sse.registry ∧
    chanLog (dlRun (some rid) itag mediaType url st1 post).sse rid =
      chanLog st1.sse rid ∧
    rid ∉ (dlRun (some rid) itag mediaType url st1 post).sse.registry := by
  obtain ⟨c, hc⟩ := hch
  have hro : jsOrNullStr (some rid) = some rid := by
    simp [jsOrNullStr, hrid]
  have hcnd : t ≠ 0 ∧ t ≤ d := ⟨ht, hd⟩
  have hsse : st1.sse =
      sseDelete
        (sseEndChan
          (sseWrite
            (sseWrite (sseWrite st.sse rid (dataLine d (some t)))
              rid "event: done\n")
            rid "data: \x7b\x7d\n\n")
          rid)
        rid := by
    rw [hst1]
    show onProgress (some rid) st.sse d (some t) = _
    simp only [onProgress, hro, if_pos hreg, if_pos hcnd]
  have hlook : st1.sse.channels.lookup rid =
      some { log := ((c.log ++ [dataLine d (some t)]) ++ ["event: done\n"]) ++
          ["data: \x7b\x7d\n\n"], ended := true } := by
    rw [hsse]
    simp only [sseDelete, sseEndChan, sseWrite]
    rw [lookup_updateChan_self, lookup_updateChan_self, lookup_updateChan_self,
      lookup_updateChan_self, hc]
    rfl
  have hnotreg : rid ∉ st1.sse.registry := by
    rw [hsse]
    simp only [sseDelete]
    intro hmem
    have hp := List.of_mem_filter hmem
    simp at hp
  refine ⟨?_, ?_, hnotreg, ?_, ?_⟩
  · unfold chanLog
    rw [hlook, hc]
    simp [List.append_assoc]
  · unfold chanEnded
    rw [hlook]
  · have hpres := dlRun_unregistered (some rid) itag mediaType url st1 post rid hnotreg
    unfold chanLog
    rw [hpres.1]
  · exact (dlRun_unregistered (some rid) itag mediaType url st1 post rid hnotreg).2

/-- Concrete post-completion state for the C3 witness. -/
def c3Step : DlState :=
  dlStep (some ("r")) none ("video") ("u") (initState regSse)
    (DlEvent.progress 5 (some 5))

/-- C3 witness: a registered channel, a completing progress event, then
one further progress push that is a no-op. -/
theorem C3_witness :
    chanLog c3Step.sse ("r") =
      chanLog (initState regSse).sse ("r") ++
        [dataLine 5 (some 5), "event: done\n", "data: \x7b\x7d\n\n"] ∧
    chanEnded c3Step.sse ("r") = true ∧
    ("r" : String) ∉ c3Step.sse.registry ∧
    chanLog (dlRun (some ("r")) none ("video") ("u") c3Step
        [DlEvent.progress 7 (some 5)]).sse ("r") = chanLog c3Step.sse ("r") ∧
    ("r" : String) ∉ (dlRun (some ("r")) none ("video") ("u") c3Step
        [DlEvent.progress 7 (some 5)]).sse.registry :=
  C3_done_terminal ("r") none ("video") ("u") (initState regSse) 5 5 c3Step
    [DlEvent.progress 7 (some 5)] (by decide) (by decide)
    ⟨{ log := [], ended := false }, by decide⟩ (by decide) (by decide) rfl

/-- C4: evaluation at the failing input — a registered progress channel,
one delivered byte, then a primary-stream error. The code ends the
response and spawns no fallback, but pushes no terminal `error` event:
the channel log stays empty, the channel is not ended, and it remains in
the registry, contradicting the claimed terminal error push before
channel closure and removal. -/
theorem C4_no_error_event :
    (dlRun (some ("r")) none ("video") ("u") (initState regSse)
        [DlEvent.chunk, DlEvent.streamError]).resEnded = true ∧
    (dlRun (some ("r")) none ("video") ("u") (initState regSse)
        [DlEvent.chunk, DlEvent.streamError]).fallbackSpawns = [] ∧
    chanLog (dlRun (some ("r")) none ("video") ("u") (initState regSse)
        [DlEvent.chunk, DlEvent.streamError]).sse ("r") = [] ∧
    chanEnded (dlRun (some ("r")) none ("video") ("u") (initState regSse)
        [DlEvent.chunk, DlEvent.streamError]).sse ("r") = false ∧
    ("r" : String) ∈ (dlRun (some ("r")) none ("video") ("u") (initState regSse)
        [DlEvent.chunk, DlEvent.streamError]).sse.registry := by
  refine ⟨?_, ?_, ?_, ?_, ?_⟩ <;> decide

/-- C10: while the response is served by the fallback process, the only
stream activity is chunks on the download response; these never write to
or remove any progress channel, so the SSE state is untouched, and a
channel is removed only by its own client's transport-level disconnect. -/
theorem C10_fallback_silent (requestId itag : Option String)
    (mediaType url : String) (st : DlState) (evs : List DlEvent) (rid : String)
    (hphase : st.phase = Phase.fallback)
    (hevs : ∀ e ∈ evs, e = DlEvent.chunk) :
    (dlRun requestId itag mediaType url st evs).sse = st.sse ∧
    (dlRun requestId itag mediaType url st
        (evs ++ [DlEvent.sseClose rid])).sse.registry =
      st.sse.registry.filter (fun k => !(k == rid)) := by
  have key : ∀ (l : List DlEvent) (s : DlState), (∀ e ∈ l, e = DlEvent.chunk) →
      (dlRun requestId itag mediaType url s l).sse = s.sse := by
    intro l
    induction l with
    | nil =>
      intro s _
      rfl
    | cons e rest ih =>
      intro s hl
      have he : e = DlEvent.chunk := hl e (List.mem_cons_self e rest)
      subst he
      show (dlRun requestId itag mediaType url
        (dlStep requestId itag mediaType url s DlEvent.chunk) rest).sse = s.sse
      rw [ih _ (fun x hx => hl x (List.mem_cons_of_mem _ hx))]
      rfl
  refine ⟨key evs st hevs, ?_⟩
  rw [dlRun_append]
  show (sseDelete (dlRun requestId itag mediaType url st evs).sse rid).registry = _
  rw [key evs st hevs]
  rfl

/-- A mid-fallback state for the C10 witness. -/
def c10St : DlState :=
  { sse := regSse, headersSent := true, resEnded := false,
    fallbackSpawns := [fallbackArgs none ("video") ("u")],
    streamErrHandled := true, phase := Phase.fallback }

/-- C10 witness: one fallback chunk leaves the SSE state untouched and a
subsequent progress-client disconnect removes exactly that channel. -/
theorem C10_witness :
    (dlRun none none ("video") ("u") c10St [DlEvent.chunk]).sse = c10St.sse ∧
    (dlRun none none ("video") ("u") c10St
        ([DlEvent.chunk] ++ [DlEvent.sseClose ("r")])).sse.registry =
      c10St.sse.registry.filter (fun k => !(k == ("r" : String))) :=
  C10_fallback_silent none none ("video") ("u") c10St [DlEvent.chunk] ("r") rfl
    (by decide)
